import Mathlib

/-!
Verification of the WhatsApp moderation bot against its design document.

The repository ships one primary script (`index.js`) and several
near-duplicate variants (`moderator_whitelist_full.js` and friends, here
`part_000` … `part_003`).  The shallow embedding below models, faithfully to
each source file:

* the banned-word matchers (`index.js` builds a Unicode word-boundary regex;
  the `part_000` variant does a raw `String.includes` substring test),
* the identity resolver `getNormalizedSenderNumber` of `part_000`,
* the full message handler of `index.js` (commands, moderation, warning
  store updates) as a state-transition function with an explicit effect list,
* the deduplicating ledger and `processSingleMessage` pipeline of `part_000`
  (including the `trimProcessed` eviction logic with its 30000/25000/20000
  bounds and 24h TTL),
* the persistence queue of `index.js` (`saveWarnings` with the
  `saveInProgress` / `saveQueued` / `diskWritesDisabled` flags) as a small
  event-driven transition system, and
* the robust loader `loadWarnings` of `index.js` over an explicit
  filesystem map, with its corrupt-file quarantine path.

JavaScript objects and Maps keyed by strings are modelled as
insertion-ordered association lists with JS semantics: `set` updates in
place or appends, `delete` removes the key, `get` returns the first
binding.  JS deletes a (unique) key; we model deletion as dropping every
binding of that key, which coincides on the unique-key lists the runtime
produces.
-/

set_option maxHeartbeats 1000000
set_option maxRecDepth 2000

namespace ModBot

/-! ## Generic list helpers (string scanning, JS-like primitives) -/

/-- Boolean list-prefix test (used to embed `String.startsWith` and
substring scanning). -/
def isPrefixL : List Char → List Char → Bool
  | [], _ => true
  | _ :: _, [] => false
  | a :: as, b :: bs => a == b && isPrefixL as bs

/-- `containsL needle hay` embeds JavaScript `hay.includes(needle)`. -/
def containsL (needle : List Char) : List Char → Bool
  | [] => needle.isEmpty
  | c :: t => isPrefixL needle (c :: t) || containsL needle t

/-- `nthD l n d` is the character of `l` at index `n`, or `d` out of range. -/
def nthD (l : List Char) (n : Nat) (d : Char) : Char :=
  match l, n with
  | [], _ => d
  | c :: _, 0 => c
  | _ :: t, n + 1 => nthD t n d

/-- JS `str.endsWith(sfx)`. -/
def endsWithL (l sfx : List Char) : Bool :=
  isPrefixL sfx.reverse l.reverse

/-- One pass of `replace(/\s+/g, " ")`: each maximal whitespace run becomes
a single space.  The flag records whether we are inside a run. -/
def collapseAux : Bool → List Char → List Char
  | _, [] => []
  | inRun, c :: t =>
    if c.isWhitespace then
      if inRun then collapseAux true t else ' ' :: collapseAux true t
    else c :: collapseAux false t

/-- JS `str.replace(/\s+/g, " ")`. -/
def collapseWs (l : List Char) : List Char := collapseAux false l

/-- JS `str.trim()`. -/
def trimL (l : List Char) : List Char :=
  ((l.dropWhile Char.isWhitespace).reverse.dropWhile Char.isWhitespace).reverse

/-- JS `str.replace(/\D/g, "")`: keep only the digit characters. -/
def filterDigits (l : List Char) : List Char := l.filter Char.isDigit

/-- Splitting an (already whitespace-collapsed) string on single spaces;
embeds `str.split(/\s+/)` for the collapsed strings the handler feeds it. -/
def splitOnSpace : List Char → List (List Char)
  | [] => [[]]
  | c :: t =>
    match splitOnSpace t with
    | [] => [[]]
    | h :: r => if c == ' ' then [] :: h :: r else (c :: h) :: r

/-! ## Association maps with JavaScript object/Map semantics -/

/-- `m.get(k)` / `obj[k]`: first binding of `k`. -/
def mapGet {α : Type} (m : List (String × α)) (k : String) : Option α :=
  match m with
  | [] => none
  | p :: rest => if p.1 == k then some p.2 else mapGet rest k

/-- `m.set(k, v)` / `obj[k] = v`: update in place, else append. -/
def mapSet {α : Type} (m : List (String × α)) (k : String) (v : α) :
    List (String × α) :=
  match m with
  | [] => [(k, v)]
  | p :: rest => if p.1 == k then (k, v) :: rest else p :: mapSet rest k v

/-- `m.delete(k)` / `delete obj[k]`: drop the bindings of `k` (JS keys are
unique, so dropping all occurrences agrees with dropping the key). -/
def mapDelete {α : Type} (m : List (String × α)) (k : String) :
    List (String × α) :=
  m.filter (fun p => !(p.1 == k))

/-! ### Map lemmas -/

theorem mapGet_set_self {α : Type} (m : List (String × α)) (k : String) (v : α) :
    mapGet (mapSet m k v) k = some v := by
  induction m with
  | nil => simp [mapGet, mapSet]
  | cons p rest ih =>
    by_cases h : p.1 = k
    · simp [mapGet, mapSet, h]
    · simp only [mapSet, mapGet, beq_iff_eq, h, if_false]
      exact ih

theorem mapGet_set_ne {α : Type} (m : List (String × α)) {k j : String} (v : α)
    (h : k ≠ j) : mapGet (mapSet m k v) j = mapGet m j := by
  induction m with
  | nil => simp [mapGet, mapSet, h]
  | cons p rest ih =>
    by_cases hp : p.1 = k
    · simp [mapGet, mapSet, hp, h]
    · simp only [mapSet, mapGet, beq_iff_eq, hp, if_false]
      by_cases hj : p.1 = j <;> simp [hj, ih]

theorem mapSet_of_get_none {α : Type} {m : List (String × α)} {k : String}
    (h : mapGet m k = none) (v : α) : mapSet m k v = m ++ [(k, v)] := by
  induction m with
  | nil => simp [mapSet]
  | cons p rest ih =>
    by_cases hp : p.1 = k
    · simp [mapGet, hp] at h
    · simp only [mapGet, beq_iff_eq, hp, if_false] at h
      simp [mapSet, hp, ih h]

theorem mapGet_append_right {α : Type} {m : List (String × α)} {k : String}
    (h : mapGet m k = none) (l : List (String × α)) :
    mapGet (m ++ l) k = mapGet l k := by
  induction m with
  | nil => simp
  | cons p rest ih =>
    by_cases hp : p.1 = k
    · simp [mapGet, hp] at h
    · simp only [mapGet, beq_iff_eq, hp, if_false] at h
      simpa [mapGet, hp] using ih h

theorem mapSet_append_self {α : Type} {m : List (String × α)} {k : String}
    (h : mapGet m k = none) (v w : α) :
    mapSet (m ++ [(k, v)]) k w = m ++ [(k, w)] := by
  induction m with
  | nil => simp [mapSet]
  | cons p rest ih =>
    by_cases hp : p.1 = k
    · simp [mapGet, hp] at h
    · simp only [mapGet, beq_iff_eq, hp, if_false] at h
      simp [mapSet, hp, ih h]

theorem mapGet_delete_self {α : Type} (m : List (String × α)) (k : String) :
    mapGet (mapDelete m k) k = none := by
  induction m with
  | nil => simp [mapGet, mapDelete]
  | cons p rest ih =>
    by_cases hp : p.1 = k
    · simpa [mapDelete, hp] using ih
    · simpa [mapDelete, mapGet, hp] using ih

theorem mapDelete_of_get_none {α : Type} {m : List (String × α)} {k : String}
    (h : mapGet m k = none) : mapDelete m k = m := by
  induction m with
  | nil => simp [mapDelete]
  | cons p rest ih =>
    by_cases hp : p.1 = k
    · simp [mapGet, hp] at h
    · simp only [mapGet, beq_iff_eq, hp, if_false] at h
      have hb : (p.1 == k) = false := by simp [hp]
      simp only [mapDelete, List.filter, hb] at ih ⊢
      simp [ih h]

theorem mapDelete_append_self {α : Type} {m : List (String × α)} {k : String}
    (h : mapGet m k = none) (v : α) :
    mapDelete (m ++ [(k, v)]) k = m := by
  induction m with
  | nil => simp [mapDelete]
  | cons p rest ih =>
    by_cases hp : p.1 = k
    · simp [mapGet, hp] at h
    · simp only [mapGet, beq_iff_eq, hp, if_false] at h
      have hb : (p.1 == k) = false := by simp [hp]
      simp only [mapDelete, List.filter, hb] at ih ⊢
      simp [ih h]

/-! ## Effects issued to the chat transport -/

/-- One transport request issued by a handler: delete the offending message,
send a text to the chat, send a direct text, remove a participant, or
persist the warning store. -/
inductive Effect : Type where
  | deleteMsg : Effect
  | sendChat : String → Effect
  | sendDirect : String → String → Effect
  | removeParticipant : String → Effect
  | persist : Effect
  deriving DecidableEq

/-- `warnings[k] = (warnings[k] || 0) + 1` (shared verbatim by every
variant). -/
def incrementWarning (w : List (String × Int)) (k : String) :
    List (String × Int) :=
  mapSet w k ((mapGet w k).getD 0 + 1)

/-! ## The `index.js` engine -/

namespace Index

/-- `TARGET_GROUPS` of index.js. -/
def TARGET_GROUPS : List String :=
  ["6-3 of '25", "⭒๋𐙚 6MAJ 2025 ֶָ֢ᯓ★"]

/-- `WARNINGS_THRESHOLD` (default "3"). -/
def WARNINGS_THRESHOLD : Int := 3

/-- The default `BANNED_WORDS` list of index.js (already trimmed and
lowercased by the split/map pipeline). -/
def defaultBannedWords : List String :=
  ["fuck", "shit", "hell", "damn", "bitch", "ass", "bastard", "femboy",
   "dih", "dick", "pussy"]

/-- The default `ALLOWED_NUMBERS` list (digits only). -/
def allowedNumbers : List String := ["6580480362", "6585038335"]

/-- `extractDigitsFromId`: `id.replace(/\D/g, "")`, with `""` for a null id. -/
def extractDigitsFromId (id : String) : String :=
  String.mk (filterDigits id.data)

/-- `isAllowedNumberDigits`: exact, suffix or reverse-suffix match against
the allowed numbers. -/
def isAllowedNumberDigits (digits : String) : Bool :=
  if digits == "" then false
  else allowedNumbers.any (fun n =>
    if n == "" then false
    else digits == n || endsWithL digits.data n.data || endsWithL n.data digits.data)

/-- A character counted as a word character by the regex classes
`\p{L}` / `\p{N}` (modelled on the ASCII range that `Char.isAlpha` /
`Char.isDigit` cover, which includes every character the configured word
lists and the design examples use). -/
def isWordChar (c : Char) : Bool := c.isAlpha || c.isDigit

/-- One candidate match position of the banned regex
`(^|[^\p{L}\p{N}])(w1|…|wn)([^\p{L}\p{N}]|$)` with the `i` flag: the term
occurs (case-insensitively) at index `i`, preceded by the string start or a
non-word character, and followed by the string end or a non-word
character. -/
def boundaryMatchAt (body w : List Char) (i : Nat) : Bool :=
  isPrefixL (w.map Char.toLower) ((body.drop i).map Char.toLower) &&
  (i == 0 || !isWordChar (nthD body (i - 1) ' ')) &&
  (i + w.length == body.length || !isWordChar (nthD body (i + w.length) ' '))

/-- `bannedRegex.test(body)`: some non-empty configured term matches at some
position with word boundaries on both sides.  (An empty term list gives a
null regex and `matched` stays false; `escapeRegExp` only makes the terms
literal, so it does not appear in the semantics.) -/
def bannedRegexTestL (terms : List String) (body : List Char) : Bool :=
  let arr := terms.filter (fun w => !(w == ""))
  arr.any (fun w =>
    (List.range (body.length + 1)).any (fun i => boundaryMatchAt body w.data i))

/-- String-level wrapper of `bannedRegexTestL`. -/
def bannedRegexTest (terms : List String) (body : String) : Bool :=
  bannedRegexTestL terms body.data

/-- The fields of an inbound message the handler of index.js reads, plus
transport-capability oracles (whether `getChat`, `delete`,
`removeParticipants` and the private send succeed). -/
structure IMsg where
  chatOk : Bool
  isGroup : Bool
  chatName : String
  author : String
  fromId : String
  body : String
  deleteOk : Bool
  removeOk : Bool
  sendOk : Bool
  deriving DecidableEq

/-- The mutable state of index.js the message handler touches. -/
structure ISt where
  moderationActive : Bool
  warnings : List (String × Int)
  myId : String
  deriving DecidableEq

/-- `senderDigits = authorDigits || fromDigits`. -/
def senderDigitsOf (m : IMsg) : String :=
  let a := extractDigitsFromId m.author
  if a == "" then extractDigitsFromId m.fromId else a

/-- `body = (message.body || "").trim()`. -/
def bodyTrim (m : IMsg) : List Char := trimL m.body.data

/-- `lowered = body.toLowerCase().replace(/\s+/g, " ").trim()`. -/
def loweredOf (m : IMsg) : List Char :=
  trimL (collapseWs ((bodyTrim m).map Char.toLower))

/-- The `startCommands` set. -/
def startCommandsL : List (List Char) :=
  [("start moderation").data, ("startmod").data, ("start moderation now").data,
   ("start").data, ("enable moderation").data, ("enable").data]

/-- The `stopCommands` set. -/
def stopCommandsL : List (List Char) :=
  [("stop moderation").data, ("stopmod").data, ("stop").data,
   ("disable moderation").data, ("disable").data]

/-- The `"check warnings"` command head. -/
def checkPatL : List Char := ("check warnings").data

/-- The `"reset warnings"` command head. -/
def resetPatL : List Char := ("reset warnings").data

/-- `target = parts[2] || parts[1]` (JS `undefined`/`""` are both falsy). -/
def commandTarget (parts : List (List Char)) : List Char :=
  let t2 := parts.getD 2 []
  if t2.isEmpty then parts.getD 1 [] else t2

/-- The private warning text sent to the offender. -/
def warnTextPrivate (chatName : String) (warnCount : Int) : String :=
  ("You have received a warning for using banned language in ") ++ chatName ++
  (". Warning ") ++ toString warnCount ++ ("/") ++ toString WARNINGS_THRESHOLD ++
  (". Please follow group rules.")

/-- Group notice when the bot cannot delete a message. -/
def cannotDeleteNotice : String :=
  ("I detected banned content but I could not delete it. Please set me as group admin to allow moderation actions.")

/-- Group notice after a successful removal. -/
def removedNotice (warnCount : Int) : String :=
  ("User removed for repeated use of banned language (warnings: ") ++
  toString warnCount ++ (").")

/-- Group notice when removal failed. -/
def manualRemovalNotice (offenderDigits : String) : String :=
  ("I would remove @") ++ offenderDigits ++
  (" for repeated banned language, but I could not - please make me a group admin or remove them manually.")

/-- Group-mention fallback when the private warning cannot be sent. -/
def mentionFallback (offenderDigits chatName : String) (warnCount : Int) : String :=
  ("@") ++ offenderDigits ++ (" ") ++ warnTextPrivate chatName warnCount

/-- Lines 336–393 of index.js: the content-moderation tail of the handler
(banned-word test, delete attempt, warning increment with persistence, and
the at-or-above-threshold removal attempt). -/
def moderate (s : ISt) (m : IMsg) (offenderId offenderDigits : String)
    (body : List Char) : ISt × List Effect :=
  if !s.moderationActive then (s, [])
  else if !(bannedRegexTestL defaultBannedWords body) then (s, [])
  else
    let delEffs : List Effect :=
      if m.deleteOk then [Effect.deleteMsg]
      else [Effect.deleteMsg, Effect.sendChat cannotDeleteNotice]
    let w1 := incrementWarning s.warnings offenderDigits
    let warnCount := (mapGet w1 offenderDigits).getD 0
    let notifyEffs : List Effect :=
      if m.sendOk then
        [Effect.sendDirect offenderId (warnTextPrivate m.chatName warnCount)]
      else
        [Effect.sendDirect offenderId (warnTextPrivate m.chatName warnCount),
         Effect.sendChat (mentionFallback offenderDigits m.chatName warnCount)]
    if WARNINGS_THRESHOLD ≤ warnCount then
      if m.removeOk then
        ({s with warnings := mapDelete w1 offenderDigits},
         delEffs ++ [Effect.persist] ++ notifyEffs ++
           [Effect.removeParticipant offenderId,
            Effect.sendChat (removedNotice warnCount), Effect.persist])
      else
        ({s with warnings := w1},
         delEffs ++ [Effect.persist] ++ notifyEffs ++
           [Effect.removeParticipant offenderId,
            Effect.sendChat (manualRemovalNotice offenderDigits)])
    else
      ({s with warnings := w1}, delEffs ++ [Effect.persist] ++ notifyEffs)

/-- The command section of the handler (lines 294–334) with the moderation
section as its fall-through: recognise start/stop/check/reset from an
authorized sender; otherwise continue with content moderation. -/
def commandOrModerate (s : ISt) (m : IMsg) (offenderId offenderDigits : String)
    (body : List Char) : ISt × List Effect :=
  let lowered := loweredOf m
  if isAllowedNumberDigits (senderDigitsOf m) then
    if startCommandsL.contains lowered then
      ({s with moderationActive := true},
       [Effect.sendDirect m.fromId ("✅ Moderation started.")])
    else if stopCommandsL.contains lowered then
      ({s with moderationActive := false},
       [Effect.sendDirect m.fromId ("⛔ Moderation stopped.")])
    else if isPrefixL checkPatL lowered then
      let target := commandTarget (splitOnSpace lowered)
      if target.isEmpty then
        (s, [Effect.sendDirect m.fromId ("Usage: check warnings <phoneDigits>")])
      else
        let targDigits := String.mk (filterDigits target)
        let count := (mapGet s.warnings targDigits).getD 0
        (s, [Effect.sendDirect m.fromId
              (("Warnings for ") ++ targDigits ++ (": ") ++ toString count)])
    else if isPrefixL resetPatL lowered then
      let target := commandTarget (splitOnSpace lowered)
      if target.isEmpty then
        (s, [Effect.sendDirect m.fromId ("Usage: reset warnings <phoneDigits>")])
      else
        let targDigits := String.mk (filterDigits target)
        ({s with warnings := mapDelete s.warnings targDigits},
         [Effect.persist,
          Effect.sendDirect m.fromId
            (("Warnings for ") ++ targDigits ++ (" reset to 0."))])
    else moderate s m offenderId offenderDigits body
  else moderate s m offenderId offenderDigits body

/-- The `client.on('message')` handler of index.js (lines 260–399) as a
state-transition function returning the new state and the transport
requests it issued: the gate section (chat resolution, group scope,
self-check, non-empty body) followed by `commandOrModerate`. -/
def handleMessage (s : ISt) (m : IMsg) : ISt × List Effect :=
  if !m.chatOk then (s, [])
  else if !m.isGroup then (s, [])
  else if !(TARGET_GROUPS.contains m.chatName) then (s, [])
  else
    let offenderId := if m.author == "" then m.fromId else m.author
    let offenderDigits := extractDigitsFromId offenderId
    if !(s.myId == "") && !(extractDigitsFromId s.myId == "") &&
        offenderDigits == extractDigitsFromId s.myId then (s, [])
    else
      let body := bodyTrim m
      if body.isEmpty then (s, [])
      else commandOrModerate s m offenderId offenderDigits body

end Index

/-! ## The `part_000` engine (`moderator_whitelist_full.js`) -/

namespace PartZero

/-- `TARGET_GROUP_NAME` of part_000. -/
def TARGET_GROUP_NAME : String := "6-3 of '25"

/-- `PROCESSED_TTL_SECONDS = 24 * 3600`. -/
def PROCESSED_TTL_SECONDS : Nat := 86400

/-- The hard-coded banned word list of part_000 (kept verbatim, including
the capitalised entries). -/
def bannedWords : List String :=
  ["fuck", "shit", "hell", "damn", "bitch", "ass", "bastard", "femboy",
   "dih", "dick", "pussy", "Walao", "vagina", "penis", "sus", "Harish"]

/-- The whitelist of part_000. -/
def allowedNumbers : List String := ["6580480362", "6585038335"]

/-- The banned-word scan of `processSingleMessage` (part_000, lines
281–291): a plain `text.includes(w)` substring test over the word list in
order, skipping empty words; the first containing word wins. -/
def containsBannedWith (words : List String) (text : String) : Option String :=
  words.find? (fun w => !(w == "") && containsL w.data text.data)

/-- The part_000 matcher over its hard-coded word list. -/
def containsBanned (text : String) : Option String :=
  containsBannedWith bannedWords text

/-- `getNormalizedSenderNumber(msg, senderContact)`: prefer the contact's
number, else the digits of `msg.author || msg.from`; return null when no
digits were found; prefix `65` to an 8-digit result. -/
def getNormalizedSenderNumber (contactNumber : Option String)
    (author fromId : String) : Option String :=
  let rawDigits : Option String :=
    let raw := if author == "" then fromId else author
    let digits := String.mk (filterDigits raw.data)
    if digits == "" then none else some digits
  let num : Option String :=
    match contactNumber with
    | some cn => if cn == "" then rawDigits else some cn
    | none => rawDigits
  match num with
  | none => none
  | some n =>
    let d := String.mk (filterDigits n.data)
    some (if d.data.length == 8 then ("65") ++ d else d)

/-- The deduplication ledger: the `processed` Map (insertion-ordered,
id ↦ timestamp-in-seconds) and the `processedOrder` array. -/
structure Ledger where
  order : List String
  map : List (String × Nat)
  deriving DecidableEq

/-- The eviction test of the `trimProcessed` loop:
`!ts || ts < cutoff || processed.size > 20000`. -/
def tsEvict (ts : Option Nat) (cutoff size : Nat) : Bool :=
  match ts with
  | none => true
  | some t => t == 0 || t < cutoff || 20000 < size

/-- The front-eviction loop of `trimProcessed`. -/
def trimLoop (cutoff : Nat) : List String → List (String × Nat) →
    List String × List (String × Nat)
  | [], m => ([], m)
  | oldest :: rest, m =>
    if tsEvict (mapGet m oldest) cutoff m.length then
      trimLoop cutoff rest (mapDelete m oldest)
    else (oldest :: rest, m)

/-- `trimProcessed()`: evict front entries that are stale (or while the map
exceeds 20000), then, if still above 25000, keep only the last 15000 ids
and rebuild the map from them.  (`processed.get` of a kept id is always
present here; the JS would store `undefined`, which every later read
treats as 0, so the rebuild uses `getD 0`.) -/
def trimProcessed (now : Nat) (lg : Ledger) : Ledger :=
  let cutoff := now - PROCESSED_TTL_SECONDS
  let p := trimLoop cutoff lg.order lg.map
  if 25000 < p.2.length then
    let keep := p.1.drop (p.1.length - 15000)
    ⟨keep, keep.map (fun id => (id, (mapGet p.2 id).getD 0))⟩
  else ⟨p.1, p.2⟩

/-- `markProcessed(id, tsSec)`: record the id (with `tsSec || now`) if new,
then trim when the map holds more than 30000 entries. -/
def markProcessed (now : Nat) (id : String) (tsSec : Nat) (lg : Ledger) :
    Ledger :=
  if id == "" then lg
  else
    let t := if tsSec == 0 then now else tsSec
    let lg1 :=
      if (mapGet lg.map id).isSome then lg
      else ⟨lg.order ++ [id], mapSet lg.map id t⟩
    if 30000 < lg1.map.length then trimProcessed now lg1 else lg1

/-- `isProcessed(id)`. -/
def isProcessed (lg : Ledger) (id : String) : Bool :=
  !(id == "") && (mapGet lg.map id).isSome

/-- The fields of a message the part_000 pipeline reads, with transport
oracles.  `msgId = ""` models a null `getMessageId` result and
`timestamp = 0` a falsy `msg.timestamp`. -/
structure Msg0 where
  msgId : String
  timestamp : Nat
  chatOk : Bool
  isGroup : Bool
  chatName : String
  body : String
  contactNumber : Option String
  author : String
  fromId : String
  deriving DecidableEq

/-- The mutable part_000 state touched by `processSingleMessage`. -/
structure St0 where
  moderationActive : Bool
  warnings : List (String × Int)
  ledger : Ledger
  deriving DecidableEq

/-- `senderId = msg.author || msg.from || null`. -/
def senderIdOf (m : Msg0) : Option String :=
  if m.author == "" then (if m.fromId == "" then none else some m.fromId)
  else some m.author

/-- Rendering of a possibly-null sender number inside a template string. -/
def showNum (n : Option String) : String :=
  match n with
  | none => "null"
  | some x => x

/-- The start-command phrases of part_000 (the
`normalized === "start moderation" || … || …` chain). -/
def startPats : List (List Char) :=
  [("start moderation").data, ("!mod on").data, ("!modon").data]

/-- The stop-command phrases of part_000. -/
def stopPats : List (List Char) :=
  [("stop moderation").data, ("!mod off").data, ("!modoff").data]

/-- Everything `processSingleMessage` does after the dedup gate and
`markProcessed` (part_000, lines 214–322): group gating, start/stop
commands with the authorization whitelist, and the banned-word strike
logic (warning at strikes 1–2, announce-and-remove exactly at strikes 3,
silence above 3; the warning count is never reset). -/
def processAfterMark (m : Msg0) (s : St0) : St0 × List Effect :=
  if !m.chatOk then (s, [])
  else if !m.isGroup then (s, [])
  else if !(m.chatName == TARGET_GROUP_NAME) then (s, [])
  else
    let text := (trimL m.body.data).map Char.toLower
    let senderId := senderIdOf m
    let senderNumber := getNormalizedSenderNumber m.contactNumber m.author m.fromId
    let normalized := trimL (collapseWs text)
    if startPats.contains normalized then
      match senderNumber with
      | none => (s, [Effect.sendChat ("❌ You are not authorized to start moderation.")])
      | some n =>
        if !(allowedNumbers.contains n) then
          (s, [Effect.sendChat ("❌ You are not authorized to start moderation.")])
        else if !s.moderationActive then
          ({s with moderationActive := true, warnings := []},
           [Effect.persist, Effect.sendChat ("✅ Moderation active.")])
        else (s, [])
    else if stopPats.contains normalized then
      match senderNumber with
      | none => (s, [Effect.sendChat ("❌ You are not authorized to stop moderation.")])
      | some n =>
        if !(allowedNumbers.contains n) then
          (s, [Effect.sendChat ("❌ You are not authorized to stop moderation.")])
        else if s.moderationActive then
          ({s with moderationActive := false},
           [Effect.persist, Effect.sendChat ("🛑 Moderation stopped.")])
        else (s, [])
    else if !s.moderationActive then (s, [])
    else
      match containsBannedWith bannedWords (String.mk text) with
      | none => (s, [])
      | some _w =>
        match senderId with
        | none => (s, [Effect.deleteMsg])
        | some sid =>
          let w1 := incrementWarning s.warnings sid
          let strikes := (mapGet w1 sid).getD 0
          if strikes < 3 then
            ({s with warnings := w1},
             [Effect.deleteMsg, Effect.persist,
              Effect.sendChat (("⚠️ @") ++ showNum senderNumber ++ (", warning ") ++
                toString strikes ++ ("/3 - avoid banned words."))])
          else if strikes == 3 then
            ({s with warnings := w1},
             [Effect.deleteMsg, Effect.persist,
              Effect.sendChat (("🚫 @") ++ showNum senderNumber ++
                (" reached 3 warnings and will be removed.")),
              Effect.removeParticipant sid])
          else ({s with warnings := w1}, [Effect.deleteMsg, Effect.persist])

/-- `processSingleMessage(msg)`: null-id and dedup gates, early
`markProcessed`, then the moderation body. -/
def processSingleMessage (now : Nat) (m : Msg0) (s : St0) : St0 × List Effect :=
  if m.msgId == "" then (s, [])
  else if isProcessed s.ledger m.msgId then (s, [])
  else
    let ts := if m.timestamp == 0 then now else m.timestamp
    let s1 : St0 := {s with ledger := markProcessed now m.msgId ts s.ledger}
    processAfterMark m s1

end PartZero

/-! ## The persistence queue of index.js (`saveWarnings`)

`saveWarnings` is an async function; JavaScript is single threaded, so the
only interleaving points are its `await`s.  We model it as a transition
system over the three flags plus an instrumentation counter
`writesInFlight` counting file writes currently running: a `request` event
is a call to `saveWarnings()` running to its first suspension, and a
`complete` event is the write finishing (successfully or not) and the
`finally` block running, including the re-entrant `saveWarnings()` it
schedules when a save was queued. -/

namespace Persist

/-- The flags of index.js lines 73–77, plus the count of writes running. -/
structure PSt where
  diskWritesDisabled : Bool
  saveInProgress : Bool
  saveQueued : Bool
  writesInFlight : Nat
  deriving DecidableEq

/-- Process start: nothing disabled, nothing running. -/
def initState : PSt := ⟨false, false, false, 0⟩

/-- A call to `saveWarnings()` up to its first `await`: return at once when
disk writes are disabled; just set `saveQueued` when a save is in flight;
otherwise claim the writer slot and start the write.  The boolean reports
whether a write was started. -/
def requestSave (s : PSt) : PSt × Bool :=
  if s.diskWritesDisabled then (s, false)
  else if s.saveInProgress then ({s with saveQueued := true}, false)
  else ({s with saveInProgress := true, writesInFlight := s.writesInFlight + 1}, true)

/-- The write finishing: the catch arm disables disk writes on failure, and
the `finally` arm clears `saveInProgress` and, when a save was queued,
clears the queue flag and re-enters `saveWarnings()`. -/
def completeSave (success : Bool) (s : PSt) : PSt × Bool :=
  let s2 : PSt := ⟨if success then s.diskWritesDisabled else true, false,
                   s.saveQueued, s.writesInFlight - 1⟩
  if s2.saveQueued then requestSave {s2 with saveQueued := false}
  else (s2, false)

/-- Events of the persistence subsystem. -/
inductive PEv : Type where
  | request : PEv
  | complete : Bool → PEv
  deriving DecidableEq

/-- One step; a `complete` is only possible while a save is in flight. -/
def pstep (s : PSt) : PEv → Option PSt
  | PEv.request => some (requestSave s).1
  | PEv.complete ok => if s.saveInProgress then some (completeSave ok s).1 else none

/-- States reachable from process start. -/
inductive Reach : PSt → Prop where
  | start : Reach initState
  | next : ∀ {s e s2}, Reach s → pstep s e = some s2 → Reach s2

/-- The single-writer invariant: a write is running exactly while
`saveInProgress` holds. -/
def flightInv (s : PSt) : Prop :=
  s.writesInFlight = (if s.saveInProgress then 1 else 0)

theorem flightInv_init : flightInv initState := rfl

theorem flightInv_step {s s2 : PSt} {e : PEv} (h : flightInv s)
    (hs : pstep s e = some s2) : flightInv s2 := by
  cases e with
  | request =>
    simp only [pstep, Option.some.injEq] at hs
    subst hs
    unfold requestSave
    by_cases h1 : s.diskWritesDisabled
    · simpa [h1] using h
    · by_cases h2 : s.saveInProgress
      · simpa [h1, h2, flightInv] using h
      · simp [h1, h2, flightInv] at h ⊢
        simp [h]
  | complete ok =>
    simp only [pstep] at hs
    by_cases h2 : s.saveInProgress
    · simp only [h2, if_true, Option.some.injEq] at hs
      subst hs
      unfold completeSave requestSave
      have hw : s.writesInFlight = 1 := by simpa [flightInv, h2] using h
      cases ok <;> by_cases hq : s.saveQueued <;>
        by_cases hd : s.diskWritesDisabled <;>
          simp [flightInv, hq, hw, hd]
    · simp [h2] at hs

theorem flightInv_reach {s : PSt} (h : Reach s) : flightInv s := by
  induction h with
  | start => exact flightInv_init
  | next _ hs ih => exact flightInv_step ih hs

end Persist

/-! ## The robust loader of index.js (`loadWarnings`)

The filesystem is a path ↦ content map.  `parse` abstracts `JSON.parse`
(returning `none` on a parse failure), `ts` is the sanitised ISO timestamp
used in the quarantine name, and `readOk` / `renameOk` / `copyOk` are the
outcome oracles for the corresponding `fsp` calls. -/

namespace Load

/-- `WARNINGS_FILE` (default location). -/
def WARNINGS_FILE : String := "warnings.json"

/-- Key normalisation on load: each key is replaced by its digits (or kept
verbatim when it contains none), later keys overwriting earlier ones. -/
def normaliseKeys (parsed : List (String × Int)) : List (String × Int) :=
  parsed.foldl (fun acc kv =>
    let digits := String.mk (filterDigits kv.1.data)
    mapSet acc (if digits == "" then kv.1 else digits) kv.2) []

/-- Result of `loadWarnings`: the filesystem afterwards, the in-memory
warnings map, and the `diskWritesDisabled` flag. -/
structure LoadResult where
  fs : List (String × String)
  warnings : List (String × Int)
  diskWritesDisabled : Bool
  deriving DecidableEq

/-- `loadWarnings()` of index.js (lines 91–129).  Missing file: empty
store.  Unreadable file: the outer catch keeps the process alive with an
empty store and flips to memory-only.  Parse failure: the corrupt file is
renamed to `<file>.corrupt.<timestamp>` (or copied there when the rename
fails; kept in place when both fail) and the store starts empty.  The
function is total: no branch propagates an exception. -/
def loadWarnings (parse : String → Option (List (String × Int))) (ts : String)
    (readOk renameOk copyOk : Bool) (fs0 : List (String × String)) :
    LoadResult :=
  match mapGet fs0 WARNINGS_FILE with
  | none => ⟨fs0, [], false⟩
  | some raw =>
    if !readOk then ⟨fs0, [], true⟩
    else
      match parse (if raw == "" then "{}" else raw) with
      | some parsed => ⟨fs0, normaliseKeys parsed, false⟩
      | none =>
        let corruptPath := WARNINGS_FILE ++ (".corrupt.") ++ ts
        if renameOk then
          ⟨mapSet (mapDelete fs0 WARNINGS_FILE) corruptPath raw, [], false⟩
        else if copyOk then ⟨mapSet fs0 corruptPath raw, [], false⟩
        else ⟨fs0, [], false⟩

end Load

/-! ## Supporting lemmas -/

theorem mapGet_delete_ne {α : Type} (m : List (String × α)) {k j : String}
    (h : k ≠ j) : mapGet (mapDelete m k) j = mapGet m j := by
  induction m with
  | nil => rfl
  | cons p rest ih =>
    by_cases hp : p.1 = k
    · have hb : (p.1 == k) = true := by simp [hp]
      have hj2 : mapGet (p :: rest) j = mapGet rest j := by
        have hne : (p.1 == j) = false := by
          simp only [beq_eq_false_iff_ne, ne_eq]
          intro hc
          exact h (hp.symm.trans hc)
        simp [mapGet, hne]
      simp only [mapDelete, List.filter, hb, Bool.not_true] at ih ⊢
      rw [hj2]
      exact ih
    · have hb : (p.1 == k) = false := by simp [hp]
      simp only [mapDelete, List.filter, hb, Bool.not_false] at ih ⊢
      by_cases hj : p.1 = j <;> simp [mapGet, hj, ih]

theorem mapGet_none_of_forall {α : Type} {m : List (String × α)} {k : String}
    (h : ∀ p ∈ m, (p.1 == k) = false) : mapGet m k = none := by
  induction m with
  | nil => rfl
  | cons p rest ih =>
    simp only [mapGet, h p (by simp), if_neg, Bool.false_eq_true,
      not_false_iff]
    exact ih (fun q hq => h q (by simp [hq]))

theorem mapDelete_not_mem {α : Type} {m : List (String × α)} {k : String}
    (h : k ∉ m.map Prod.fst) : mapDelete m k = m := by
  apply mapDelete_of_get_none
  apply mapGet_none_of_forall
  intro p hp
  simp only [beq_eq_false_iff_ne, ne_eq]
  intro hc
  exact h (by simpa [hc] using List.mem_map_of_mem Prod.fst hp)

theorem filterDigits_of_all {l : List Char} (h : l.all Char.isDigit = true) :
    filterDigits l = l := by
  simpa [filterDigits, List.filter_eq_self] using (by simpa [List.all_eq_true] using h)

theorem string_mk_data (s : String) : String.mk s.data = s := rfl

theorem extractDigits_of_all {d : String} (h : d.data.all Char.isDigit = true) :
    Index.extractDigitsFromId d = d := by
  unfold Index.extractDigitsFromId
  rw [filterDigits_of_all h, string_mk_data]

theorem isPrefixL_length {u v : List Char} (h : isPrefixL u v = true) :
    u.length ≤ v.length := by
  induction u generalizing v with
  | nil => simp
  | cons a as ih =>
    cases v with
    | nil => simp [isPrefixL] at h
    | cons b bs =>
      simp only [isPrefixL, Bool.and_eq_true] at h
      simpa using ih h.2

theorem isPrefixL_take {u v : List Char} (h : isPrefixL u v = true) :
    v.take u.length = u := by
  induction u generalizing v with
  | nil => simp
  | cons a as ih =>
    cases v with
    | nil => simp [isPrefixL] at h
    | cons b bs =>
      simp only [isPrefixL, Bool.and_eq_true, beq_iff_eq] at h
      simp [h.1.symm, ih h.2]

theorem take_succ_nthD (l : List Char) (j : Nat) (d : Char) (h : j < l.length) :
    l.take (j + 1) = l.take j ++ [nthD l j d] := by
  induction l generalizing j with
  | nil => simp at h
  | cons c t ih =>
    cases j with
    | zero => simp [nthD]
    | succ j2 =>
      simp only [List.take_succ_cons, nthD, List.cons_append, List.cons.injEq,
        true_and]
      exact ih j2 (by simpa using h)

theorem nthD_headD_drop (l : List Char) (n : Nat) (d : Char) :
    nthD l n d = (l.drop n).headD d := by
  induction l generalizing n with
  | nil => cases n <;> rfl
  | cons c t ih =>
    cases n with
    | zero => rfl
    | succ n2 => simpa [nthD] using ih n2

/-- Soundness of one regex match position: a successful `boundaryMatchAt`
yields a decomposition of the body with the term in the middle
(case-insensitively) and non-word characters (or string edges) on both
sides. -/
theorem boundary_sound {body w : List Char} {i : Nat}
    (hi : i ≤ body.length) (h : Index.boundaryMatchAt body w i = true) :
    ∃ (p mid tail : List Char),
      body = p ++ mid ++ tail ∧
      mid.map Char.toLower = w.map Char.toLower ∧
      (p = [] ∨ ∃ (p2 : List Char) (c : Char),
        p = p2 ++ [c] ∧ Index.isWordChar c = false) ∧
      (tail = [] ∨ ∃ (c : Char) (t2 : List Char),
        tail = c :: t2 ∧ Index.isWordChar c = false) := by
  unfold Index.boundaryMatchAt at h
  simp only [Bool.and_eq_true] at h
  obtain ⟨⟨h1, h2⟩, h3⟩ := h
  refine ⟨body.take i, (body.drop i).take w.length, (body.drop i).drop w.length,
    ?_, ?_, ?_, ?_⟩
  · have e1 : (body.drop i).take w.length ++ (body.drop i).drop w.length =
        body.drop i := List.take_append_drop _ _
    have e2 : body.take i ++ body.drop i = body := List.take_append_drop _ _
    rw [List.append_assoc, e1, e2]
  · have ht := isPrefixL_take h1
    rw [List.length_map] at ht
    rw [← List.map_take] at ht
    exact ht
  · rcases Bool.or_eq_true _ _ |>.mp h2 with hz | hnw
    · left
      have : i = 0 := by simpa using hz
      simp [this]
    · cases i with
      | zero => left; simp
      | succ j =>
        right
        have hj : j < body.length := lt_of_lt_of_le (Nat.lt_succ_self j) hi
        refine ⟨body.take j, nthD body j ' ', ?_, ?_⟩
        · simpa using take_succ_nthD body j ' ' hj
        · simpa using hnw
  · cases htl : (body.drop i).drop w.length with
    | nil => left; rfl
    | cons c t2 =>
      right
      have hdd : (body.drop i).drop w.length = body.drop (i + w.length) :=
        List.drop_drop _ _ _
      rcases Bool.or_eq_true _ _ |>.mp h3 with hend | hnw
      · exfalso
        have he : i + w.length = body.length := by simpa using hend
        have : (body.drop i).drop w.length = [] := by
          rw [hdd, he]
          exact List.drop_length body
        rw [htl] at this
        exact List.cons_ne_nil _ _ this
      · refine ⟨c, t2, rfl, ?_⟩
        have hw : Index.isWordChar (nthD body (i + w.length) ' ') = false := by
          simpa using hnw
        rw [nthD_headD_drop, ← hdd, htl] at hw
        simpa using hw

/-- Soundness of the whole regex test: a positive `bannedRegexTest` exhibits
a configured term occurring with word boundaries. -/
theorem bannedRegexTest_sound {terms : List String} {body : String}
    (h : Index.bannedRegexTest terms body = true) :
    ∃ (p mid tail : List Char) (w : String), w ∈ terms ∧
      body.data = p ++ mid ++ tail ∧
      mid.map Char.toLower = w.data.map Char.toLower ∧
      (p = [] ∨ ∃ (p2 : List Char) (c : Char),
        p = p2 ++ [c] ∧ Index.isWordChar c = false) ∧
      (tail = [] ∨ ∃ (c : Char) (t2 : List Char),
        tail = c :: t2 ∧ Index.isWordChar c = false) := by
  unfold Index.bannedRegexTest Index.bannedRegexTestL at h
  simp only [List.any_eq_true] at h
  obtain ⟨w, hw, i, hi, hb⟩ := h
  have hmem : w ∈ terms := (List.mem_filter.mp hw).1
  have hile : i ≤ body.data.length := by
    have := List.mem_range.mp hi
    omega
  obtain ⟨p, mid, tail, hsplit, hmid, hp, ht⟩ := boundary_sound hile hb
  exact ⟨p, mid, tail, w, hmem, hsplit, hmid, hp, ht⟩

/-- The warning-store invariant: every stored strike count is at least 1
(a zero count is represented only by absence of the key). -/
def WInv (w : List (String × Int)) : Prop :=
  ∀ k c, mapGet w k = some c → 1 ≤ c

theorem WInv_set {w : List (String × Int)} (h : WInv w) {k : String} {v : Int}
    (hv : 1 ≤ v) : WInv (mapSet w k v) := by
  intro j c hj
  by_cases hjk : k = j
  · subst hjk
    rw [mapGet_set_self] at hj
    cases hj
    exact hv
  · rw [mapGet_set_ne w v hjk] at hj
    exact h j c hj

theorem WInv_delete {w : List (String × Int)} (h : WInv w) (k : String) :
    WInv (mapDelete w k) := by
  intro j c hj
  by_cases hjk : k = j
  · subst hjk
    rw [mapGet_delete_self] at hj
    cases hj
  · rw [mapGet_delete_ne w hjk] at hj
    exact h j c hj

theorem WInv_increment {w : List (String × Int)} (h : WInv w) (k : String) :
    WInv (incrementWarning w k) := by
  unfold incrementWarning
  apply WInv_set h
  cases hg : mapGet w k with
  | none => simp
  | some c =>
    have := h k c hg
    simp only [Option.getD_some]
    omega

theorem moderate_active (s : Index.ISt) (m : Index.IMsg) (a b : String)
    (body : List Char) :
    (Index.moderate s m a b body).1.moderationActive = s.moderationActive := by
  unfold Index.moderate
  dsimp only
  repeat' split
  all_goals rfl

theorem moderate_WInv (s : Index.ISt) (m : Index.IMsg) (a b : String)
    (body : List Char) (h : WInv s.warnings) :
    WInv (Index.moderate s m a b body).1.warnings := by
  unfold Index.moderate
  dsimp only
  repeat' split
  all_goals first
    | exact h
    | exact WInv_increment h _
    | exact WInv_delete (WInv_increment h _) _

theorem commandOrModerate_active_of_notAllowed (s : Index.ISt) (m : Index.IMsg)
    (a b : String) (body : List Char)
    (h : Index.isAllowedNumberDigits (Index.senderDigitsOf m) = false) :
    (Index.commandOrModerate s m a b body).1.moderationActive =
      s.moderationActive := by
  unfold Index.commandOrModerate
  dsimp only
  simp only [h, Bool.false_eq_true, if_false]
  exact moderate_active _ _ _ _ _

theorem handleMessage_active_of_notAllowed (s : Index.ISt) (m : Index.IMsg)
    (h : Index.isAllowedNumberDigits (Index.senderDigitsOf m) = false) :
    (Index.handleMessage s m).1.moderationActive = s.moderationActive := by
  unfold Index.handleMessage
  dsimp only
  split_ifs <;> first
    | rfl
    | exact commandOrModerate_active_of_notAllowed _ _ _ _ _ h

theorem commandOrModerate_WInv (s : Index.ISt) (m : Index.IMsg)
    (a b : String) (body : List Char) (h : WInv s.warnings) :
    WInv (Index.commandOrModerate s m a b body).1.warnings := by
  unfold Index.commandOrModerate
  dsimp only
  split_ifs <;> first
    | exact h
    | exact WInv_delete h _
    | exact moderate_WInv _ _ _ _ _ h

theorem handleMessage_WInv (s : Index.ISt) (m : Index.IMsg)
    (h : WInv s.warnings) : WInv (Index.handleMessage s m).1.warnings := by
  unfold Index.handleMessage
  dsimp only
  split_ifs <;> first
    | exact h
    | exact commandOrModerate_WInv _ _ _ _ _ h

theorem processAfterMark_ledger (m : PartZero.Msg0) (s : PartZero.St0) :
    (PartZero.processAfterMark m s).1.ledger = s.ledger := by
  unfold PartZero.processAfterMark
  dsimp only
  repeat' split
  all_goals rfl

/-- A violating message for the index.js engine: a group message in the
first target group whose body is the banned word `fuck`, sent by raw id
`d`, with the removal oracle `rOk`. -/
def Index.vioMsg (d : String) (rOk : Bool) : Index.IMsg :=
  { chatOk := true, isGroup := true, chatName := "6-3 of '25", author := d,
    fromId := d, body := "fuck", deleteOk := true, removeOk := rOk, sendOk := true }

theorem mapGet_last {α : Type} {m : List (String × α)} {k : String}
    (h : mapGet m k = none) (v : α) : mapGet (m ++ [(k, v)]) k = some v := by
  rw [mapGet_append_right h]
  simp [mapGet]

/-- Symbolic execution of the index.js handler on a violating message from
a non-authorized all-digit sender in the first target group. -/
theorem handleMessage_vio (w0 : List (String × Int)) (d : String) (rOk : Bool)
    (hall : d.data.all Char.isDigit = true) (hne : (d == "") = false)
    (hna : Index.isAllowedNumberDigits d = false) :
    Index.handleMessage ⟨true, w0, ""⟩ (Index.vioMsg d rOk) =
      (let w1 := mapSet w0 d ((mapGet w0 d).getD 0 + 1)
       let c := (mapGet w1 d).getD 0
       if 3 ≤ c then
         if rOk then
           (⟨true, mapDelete w1 d, ""⟩,
            [Effect.deleteMsg, Effect.persist,
             Effect.sendDirect d (Index.warnTextPrivate ("6-3 of '25") c),
             Effect.removeParticipant d,
             Effect.sendChat (Index.removedNotice c), Effect.persist])
         else
           (⟨true, w1, ""⟩,
            [Effect.deleteMsg, Effect.persist,
             Effect.sendDirect d (Index.warnTextPrivate ("6-3 of '25") c),
             Effect.removeParticipant d,
             Effect.sendChat (Index.manualRemovalNotice d)])
       else
         (⟨true, w1, ""⟩,
          [Effect.deleteMsg, Effect.persist,
           Effect.sendDirect d (Index.warnTextPrivate ("6-3 of '25") c)])) := by
  have hext := extractDigits_of_all hall
  simp only [Index.handleMessage, Index.commandOrModerate, Index.moderate,
    Index.vioMsg, Index.senderDigitsOf, Index.bodyTrim, hext,
    hne, hna, Bool.not_true, Bool.not_false, Bool.false_eq_true,
    Bool.true_eq_false, if_false, if_true, ite_self,
    (by decide : Index.TARGET_GROUPS.contains ("6-3 of '25") = true),
    (by decide : (trimL ("fuck").data).isEmpty = false),
    (by decide : Index.bannedRegexTestL Index.defaultBannedWords (trimL ("fuck").data) = true),
    beq_self_eq_true, Bool.false_and, Bool.and_false, Index.WARNINGS_THRESHOLD,
    incrementWarning, List.singleton_append, List.cons_append, List.nil_append]

/-- Below-threshold step: the count goes up by one and no removal happens. -/
theorem vio_low (w : List (String × Int)) (d : String) (rOk : Bool)
    (hall : d.data.all Char.isDigit = true) (hne : (d == "") = false)
    (hna : Index.isAllowedNumberDigits d = false) (c0 : Int)
    (hc : (mapGet w d).getD 0 = c0) (hlt : c0 + 1 < 3) :
    Index.handleMessage ⟨true, w, ""⟩ (Index.vioMsg d rOk) =
      (⟨true, mapSet w d (c0 + 1), ""⟩,
       [Effect.deleteMsg, Effect.persist,
        Effect.sendDirect d (Index.warnTextPrivate ("6-3 of '25") (c0 + 1))]) := by
  rw [handleMessage_vio w d rOk hall hne hna]
  simp only [hc, mapGet_set_self, Option.getD_some]
  rw [if_neg (by omega)]

/-- At-or-above-threshold step: removal is attempted; with a successful
removal oracle the offender's record is deleted. -/
theorem vio_high (w : List (String × Int)) (d : String) (rOk : Bool)
    (hall : d.data.all Char.isDigit = true) (hne : (d == "") = false)
    (hna : Index.isAllowedNumberDigits d = false) (c0 : Int)
    (hc : (mapGet w d).getD 0 = c0) (hge : 3 ≤ c0 + 1) :
    (rOk = true →
      Index.handleMessage ⟨true, w, ""⟩ (Index.vioMsg d rOk) =
        (⟨true, mapDelete (mapSet w d (c0 + 1)) d, ""⟩,
         [Effect.deleteMsg, Effect.persist,
          Effect.sendDirect d (Index.warnTextPrivate ("6-3 of '25") (c0 + 1)),
          Effect.removeParticipant d,
          Effect.sendChat (Index.removedNotice (c0 + 1)), Effect.persist])) ∧
    Effect.removeParticipant d ∈
      (Index.handleMessage ⟨true, w, ""⟩ (Index.vioMsg d rOk)).2 := by
  rw [handleMessage_vio w d rOk hall hne hna]
  simp only [hc, mapGet_set_self, Option.getD_some]
  rw [if_pos hge]
  constructor
  · intro hr
    rw [if_pos hr]
  · cases rOk <;> simp

/-- A message for the part_000 pipeline: fresh id `msgId`, the given body,
sent in the target group by `7@c.us`. -/
def PartZero.mkMsg (msgId body : String) : PartZero.Msg0 :=
  { msgId := msgId, timestamp := 5, chatOk := true, isGroup := true,
    chatName := "6-3 of '25", body := body, contactNumber := none,
    author := "7@c.us", fromId := "g@g.us" }

/-! ## Dedup-ledger machinery for C6 -/

/-- The key `a…a` of length `n`. -/
def PartZero.aStr (n : Nat) : String := String.mk (List.replicate n 'a')

/-- 30000 distinct processed-message records, all with the stale
timestamp 1. -/
def PartZero.bigPairs : List (String × Nat) :=
  (List.range 30000).map (fun n => (PartZero.aStr (n + 1), 1))

/-- A violating message whose transport timestamp (1 second) is far older
than the 24h TTL relative to wall-clock second 1000000. -/
def PartZero.staleMsg : PartZero.Msg0 :=
  { msgId := "x", timestamp := 1, chatOk := true, isGroup := true,
    chatName := "6-3 of '25", body := "fuck", contactNumber := none,
    author := "7@c.us", fromId := "g@g.us" }

theorem aStr_ne_x (n : Nat) : PartZero.aStr (n + 1) ≠ "x" := by
  intro hc
  have h2 : (PartZero.aStr (n + 1)).data.headD ' ' =
      ("x" : String).data.headD ' ' :=
    congrArg (fun t : String => t.data.headD ' ') hc
  have hl : (PartZero.aStr (n + 1)).data.headD ' ' = 'a' := by
    simp [PartZero.aStr, List.replicate_succ]
  have hr : ("x" : String).data.headD ' ' = 'x' := by decide
  rw [hl, hr] at h2
  exact absurd h2 (by decide)

theorem bigPairs_get_x : mapGet PartZero.bigPairs ("x") = none := by
  apply mapGet_none_of_forall
  intro p hp
  simp only [PartZero.bigPairs, List.mem_map] at hp
  obtain ⟨n, _, rfl⟩ := hp
  simp only [beq_eq_false_iff_ne, ne_eq]
  exact aStr_ne_x n

theorem bigKeys_nodup : (PartZero.bigPairs.map Prod.fst).Nodup := by
  unfold PartZero.bigPairs
  rw [List.map_map]
  apply List.Nodup.map ?_ (List.nodup_range _)
  intro a b hab
  simp only [Function.comp_apply] at hab
  have h2 : (List.replicate (a + 1) 'a').length =
      (List.replicate (b + 1) 'a').length := by
    have h3 := congrArg (fun t : String => t.data.length) hab
    simpa [PartZero.aStr] using h3
  simp only [List.length_replicate] at h2
  omega

theorem bigKeysX_nodup :
    ((PartZero.bigPairs ++ [(("x" : String), (1 : Nat))]).map Prod.fst).Nodup := by
  rw [List.map_append]
  apply List.Nodup.append bigKeys_nodup (List.nodup_singleton _)
  intro a ha hb
  simp only [PartZero.bigPairs, List.map_map, List.mem_map] at ha
  obtain ⟨n, _, rfl⟩ := ha
  simp only [List.map_cons, List.map_nil, List.mem_singleton] at hb
  exact aStr_ne_x n hb

theorem bigPairsX_vals :
    ∀ p ∈ PartZero.bigPairs ++ [(("x" : String), (1 : Nat))], p.2 = 1 := by
  intro p hp
  rcases List.mem_append.mp hp with h | h
  · simp only [PartZero.bigPairs, List.mem_map] at h
    obtain ⟨n, _, rfl⟩ := h
    rfl
  · simp only [List.mem_singleton] at h
    rw [h]

/-- The eviction loop empties a ledger whose timestamps are all below the
cutoff (the order list being the map's keys, as the pipeline maintains). -/
theorem trimLoop_all_stale (cutoff : Nat) :
    ∀ (m : List (String × Nat)), (m.map Prod.fst).Nodup →
    (∀ p ∈ m, p.2 < cutoff) →
    PartZero.trimLoop cutoff (m.map Prod.fst) m = ([], []) := by
  intro m
  induction m with
  | nil =>
    intro _ _
    rfl
  | cons p rest ih =>
    intro hnd hst
    obtain ⟨k, v⟩ := p
    rw [List.map_cons]
    unfold PartZero.trimLoop
    have hget : mapGet ((k, v) :: rest) k = some v := by simp [mapGet]
    have hev : PartZero.tsEvict (mapGet ((k, v) :: rest) k) cutoff
        ((k, v) :: rest).length = true := by
      rw [hget]
      unfold PartZero.tsEvict
      have hv : v < cutoff := hst (k, v) (by simp)
      simp [hv]
    rw [if_pos hev]
    have hk : k ∉ rest.map Prod.fst :=
      (List.nodup_cons.mp (by simpa using hnd)).1
    have hdel : mapDelete ((k, v) :: rest) k = rest := by
      unfold mapDelete
      rw [List.filter]
      simp only [beq_self_eq_true, Bool.not_true]
      exact mapDelete_not_mem hk
    rw [hdel]
    exact ih (List.nodup_cons.mp (by simpa using hnd)).2
      (fun q hq => hst q (List.mem_cons_of_mem _ hq))

theorem trimProcessed_stale :
    PartZero.trimProcessed 1000000
      ⟨(PartZero.bigPairs ++ [(("x" : String), (1 : Nat))]).map Prod.fst,
       PartZero.bigPairs ++ [(("x" : String), (1 : Nat))]⟩ = ⟨[], []⟩ := by
  unfold PartZero.trimProcessed
  dsimp only
  rw [trimLoop_all_stale _ _ bigKeysX_nodup
    (fun p hp => by rw [bigPairsX_vals p hp]; decide)]
  rfl

theorem map_app_x :
    (PartZero.bigPairs ++ [(("x" : String), (1 : Nat))]).map Prod.fst =
      PartZero.bigPairs.map Prod.fst ++ [("x" : String)] := by
  rw [List.map_append]
  rfl

theorem mark_big :
    PartZero.markProcessed 1000000 ("x") 1
      ⟨PartZero.bigPairs.map Prod.fst, PartZero.bigPairs⟩ = ⟨[], []⟩ := by
  have hbig : 30000 < (PartZero.bigPairs ++ [(("x" : String), (1 : Nat))]).length := by
    simp only [PartZero.bigPairs, List.length_append, List.length_map,
      List.length_range]
    norm_num
  unfold PartZero.markProcessed
  rw [if_neg (by decide : ¬ ((("x" : String) == "") = true))]
  dsimp only
  rw [if_neg (by decide : ¬ (((1 : Nat) == 0) = true))]
  rw [bigPairs_get_x]
  rw [if_neg (by decide : ¬ ((Option.isSome (none : Option Nat)) = true))]
  dsimp only
  rw [mapSet_of_get_none bigPairs_get_x]
  rw [← map_app_x]
  rw [if_pos hbig]
  exact trimProcessed_stale

/-- Recording a fresh id in a ledger that is not over the 30000 bound just
appends it, with no eviction. -/
theorem markProcessed_small {lg : PartZero.Ledger} {id : String}
    (hid : (id == "") = false) (hnew : mapGet lg.map id = none)
    (hlen : lg.map.length < 30000) (now ts : Nat) :
    PartZero.markProcessed now id ts lg =
      ⟨lg.order ++ [id],
       lg.map ++ [(id, if (ts == 0) = true then now else ts)]⟩ := by
  unfold PartZero.markProcessed
  rw [if_neg (by simp [hid])]
  dsimp only
  rw [hnew]
  rw [if_neg (by decide : ¬ ((Option.isSome (none : Option Nat)) = true))]
  dsimp only
  rw [mapSet_of_get_none hnew]
  rw [if_neg ?hlt]
  case hlt =>
    rw [List.length_append]
    simp only [List.length_singleton]
    omega

/-- After processing a message with a valid id against a not-over-full
ledger, the id is recorded. -/
theorem process_then_processed (now : Nat) (m : PartZero.Msg0)
    (s : PartZero.St0) (hid : (m.msgId == "") = false)
    (hlen : s.ledger.map.length < 30000) :
    PartZero.isProcessed
      (PartZero.processSingleMessage now m s).1.ledger m.msgId = true := by
  by_cases hp : PartZero.isProcessed s.ledger m.msgId = true
  · have h1 : PartZero.processSingleMessage now m s = (s, []) := by
      unfold PartZero.processSingleMessage
      rw [if_neg (by simp [hid]), if_pos hp]
    rw [h1]
    exact hp
  · have hnew : mapGet s.ledger.map m.msgId = none := by
      have hpf : PartZero.isProcessed s.ledger m.msgId = false :=
        Bool.not_eq_true _ |>.mp hp
      unfold PartZero.isProcessed at hpf
      rw [hid] at hpf
      simp only [Bool.not_false, Bool.true_and] at hpf
      cases hmg : mapGet s.ledger.map m.msgId with
      | none => rfl
      | some v =>
        rw [hmg] at hpf
        simp at hpf
    unfold PartZero.processSingleMessage
    rw [if_neg (by simp [hid]), if_neg hp]
    dsimp only
    rw [processAfterMark_ledger]
    dsimp only
    rw [markProcessed_small hid hnew hlen]
    unfold PartZero.isProcessed
    dsimp only
    rw [mapGet_last hnew]
    simp [hid]

/-- A message the dedup ledger already holds is discarded with no state
change and no side effect. -/
theorem process_of_processed (now : Nat) (m : PartZero.Msg0)
    (r : PartZero.St0) (hid : (m.msgId == "") = false)
    (h : PartZero.isProcessed r.ledger m.msgId = true) :
    PartZero.processSingleMessage now m r = (r, []) := by
  unfold PartZero.processSingleMessage
  rw [if_neg (by simp [hid]), if_pos h]

/-! ## Claims -/

/-- C1 counterexample: the banned-word scan used by part_000's
`processSingleMessage` (cited by the claim) is a raw substring test, so
`matches("classic", {"ass"})` returns a match, and the full pipeline
deletes the message `classic` and issues a warning — contradicting the
claim that every matcher of the program is boundary-aware. -/
theorem C1_counterexample :
    PartZero.containsBannedWith ["ass"] ("classic") = some ("ass") ∧
    PartZero.containsBanned ("classic") = some ("ass") ∧
    Effect.deleteMsg ∈
      (PartZero.processSingleMessage 100 (PartZero.mkMsg ("m1") ("classic"))
        ⟨true, [], ⟨[], []⟩⟩).2 := by decide

/-- C1 (amended): the regex matcher of index.js (`bannedRegex`) is
boundary-aware — whenever it reports a match, some configured term occurs
in the body (case-insensitively) bounded by non-alphanumeric characters or
the string edges — and `matches("I say fucking hell", {"fuck","hell"})`
matches while `matches("classic", {"ass"})` does not.  (The part_000 and
part_003 variants instead use a raw substring test, refuted in the
counterexample.) -/
theorem C1_theorem :
    (∀ (terms : List String) (body : String),
        Index.bannedRegexTest terms body = true →
        ∃ (p mid tail : List Char) (w : String), w ∈ terms ∧
          body.data = p ++ mid ++ tail ∧
          mid.map Char.toLower = w.data.map Char.toLower ∧
          (p = [] ∨ ∃ (p2 : List Char) (c : Char),
            p = p2 ++ [c] ∧ Index.isWordChar c = false) ∧
          (tail = [] ∨ ∃ (c : Char) (t2 : List Char),
            tail = c :: t2 ∧ Index.isWordChar c = false)) ∧
    Index.bannedRegexTest ["fuck", "hell"] ("I say fucking hell") = true ∧
    Index.bannedRegexTest ["ass"] ("classic") = false :=
  ⟨fun _ _ h => bannedRegexTest_sound h, by decide, by decide⟩

/-- C1 witness: the soundness direction applied to the concrete body
`x hell` over the term set containing `hell`. -/
theorem C1_witness :
    ∃ (p mid tail : List Char) (w : String), w ∈ ["hell"] ∧
      ("x hell" : String).data = p ++ mid ++ tail ∧
      mid.map Char.toLower = w.data.map Char.toLower ∧
      (p = [] ∨ ∃ (p2 : List Char) (c : Char),
        p = p2 ++ [c] ∧ Index.isWordChar c = false) ∧
      (tail = [] ∨ ∃ (c : Char) (t2 : List Char),
        tail = c :: t2 ∧ Index.isWordChar c = false) :=
  C1_theorem.1 ["hell"] ("x hell") (by decide)

/-- C4: the identity resolver (`getNormalizedSenderNumber` of part_000, on
the raw-sender-id path) strips all non-digit characters, prefixes the
default country code `65` exactly when 8 digits remain, returns null when
no digits remain, and resolves the two design-document scenarios. -/
theorem string_mk_beq_empty (l : List Char) : (String.mk l == "") = l.isEmpty := by
  cases l with
  | nil => decide
  | cons c t =>
    have hne : String.mk (c :: t) ≠ "" := by
      intro hc
      have := congrArg String.data hc
      simp at this
    simp [beq_eq_false_iff_ne, hne]

theorem C4_theorem (raw : String) :
    (filterDigits raw.data = [] →
      PartZero.getNormalizedSenderNumber none raw ("") = none) ∧
    ((filterDigits raw.data).length = 8 →
      PartZero.getNormalizedSenderNumber none raw ("") =
        some (("65") ++ String.mk (filterDigits raw.data))) ∧
    (filterDigits raw.data ≠ [] → (filterDigits raw.data).length ≠ 8 →
      PartZero.getNormalizedSenderNumber none raw ("") =
        some (String.mk (filterDigits raw.data))) ∧
    PartZero.getNormalizedSenderNumber none ("91234567@c.us") ("") =
      some ("6591234567") ∧
    PartZero.getNormalizedSenderNumber none ("6591234567@c.us") ("") =
      some ("6591234567") := by
  have hidem : filterDigits (filterDigits raw.data) = filterDigits raw.data := by
    simp [filterDigits, List.filter_filter]
  have hcore : PartZero.getNormalizedSenderNumber none raw ("") =
      (if (filterDigits raw.data).isEmpty then none
       else if (filterDigits raw.data).length == 8 then
         some (("65") ++ String.mk (filterDigits raw.data))
       else some (String.mk (filterDigits raw.data))) := by
    unfold PartZero.getNormalizedSenderNumber
    by_cases hr : raw = ""
    · subst hr
      decide
    · have hbr : (raw == "") = false := by simp [hr]
      simp only [hbr, Bool.false_eq_true, if_false, string_mk_beq_empty]
      by_cases hd : (filterDigits raw.data).isEmpty = true
      · simp [hd]
      · have hdb : (filterDigits raw.data).isEmpty = false :=
          Bool.not_eq_true _ |>.mp hd
        simp only [hdb, Bool.false_eq_true, if_false, hidem]
        split_ifs <;> rfl
  refine ⟨?_, ?_, ?_, by decide, by decide⟩
  · intro h
    rw [hcore]
    simp [h]
  · intro h
    rw [hcore]
    have h1 : (filterDigits raw.data).isEmpty = false := by
      cases he : filterDigits raw.data
      · rw [he] at h
        simp at h
      · rfl
    simp [h1, h]
  · intro hne hlen
    rw [hcore]
    have h1 : (filterDigits raw.data).isEmpty = false := by
      cases he : filterDigits raw.data
      · exact absurd he hne
      · rfl
    have h2 : ((filterDigits raw.data).length == 8) = false := by
      simp [hlen]
    simp [h1, h2]

/-- C4 witness: the resolver theorem applied at the two concrete scenario
inputs and at an all-letter id. -/
theorem C4_witness :
    PartZero.getNormalizedSenderNumber none ("91234567@c.us") ("") =
      some (("65") ++ String.mk (filterDigits ("91234567@c.us").data)) ∧
    PartZero.getNormalizedSenderNumber none ("abc") ("") = none :=
  ⟨(C4_theorem ("91234567@c.us")).2.1 (by decide),
   (C4_theorem ("abc")).1 (by decide)⟩

/-- C5: a start-moderation command from a sender the authorization
predicate rejects never changes the moderation mode (in particular it
never transitions it to Active, in any state), while the same command from
an authorized sender that passes the group gates sets the mode to
Active. -/
theorem C5_theorem :
    (∀ (s : Index.ISt) (m : Index.IMsg),
        Index.isAllowedNumberDigits (Index.senderDigitsOf m) = false →
        (Index.handleMessage s m).1.moderationActive = s.moderationActive) ∧
    (∀ (s : Index.ISt) (m : Index.IMsg),
        m.chatOk = true → m.isGroup = true →
        Index.TARGET_GROUPS.contains m.chatName = true →
        s.myId = "" → (Index.bodyTrim m).isEmpty = false →
        Index.isAllowedNumberDigits (Index.senderDigitsOf m) = true →
        Index.startCommandsL.contains (Index.loweredOf m) = true →
        (Index.handleMessage s m).1.moderationActive = true) := by
  constructor
  · exact fun s m h => handleMessage_active_of_notAllowed s m h
  · intro s m h1 h2 h3 h4 h5 h6 h7
    simp only [Index.handleMessage, Index.commandOrModerate,
      h1, h2, h3, h4, h5, h6, h7, Bool.not_true, Bool.false_eq_true, if_false,
      if_true, beq_self_eq_true, Bool.false_and, Bool.and_false]

/-- An authorized start-moderation message for the index.js engine. -/
def Index.startMsg : Index.IMsg :=
  { chatOk := true, isGroup := true, chatName := "6-3 of '25",
    author := "6580480362@c.us", fromId := "6580480362@c.us",
    body := "start moderation", deleteOk := true, removeOk := true,
    sendOk := true }

/-- C5 witness: an unauthorized sender leaves the inactive mode inactive;
the authorized start command activates it. -/
theorem C5_witness :
    (Index.handleMessage ⟨false, [], ""⟩ (Index.vioMsg ("111") true)).1.moderationActive
      = false ∧
    (Index.handleMessage ⟨false, [], ""⟩ Index.startMsg).1.moderationActive = true :=
  ⟨C5_theorem.1 ⟨false, [], ""⟩ (Index.vioMsg ("111") true) (by decide),
   C5_theorem.2 ⟨false, [], ""⟩ Index.startMsg rfl rfl (by decide) rfl
     (by decide) (by decide) (by decide)⟩

/-- C2 counterexample: in the part_000 variant (cited by the claim), the
third violation triggers the removal attempt but the warning count is NOT
reset to absent — it stays at 3 — and a subsequent violation yields count
4, not 1. -/
theorem C2_counterexample :
    (PartZero.processSingleMessage 100 (PartZero.mkMsg ("m1") ("fuck"))
        ⟨true, [("7@c.us", 2)], ⟨[], []⟩⟩).1.warnings = [("7@c.us", 3)] ∧
    Effect.removeParticipant ("7@c.us") ∈
      (PartZero.processSingleMessage 100 (PartZero.mkMsg ("m1") ("fuck"))
        ⟨true, [("7@c.us", 2)], ⟨[], []⟩⟩).2 ∧
    (PartZero.processSingleMessage 100 (PartZero.mkMsg ("m2") ("fuck"))
        (PartZero.processSingleMessage 100 (PartZero.mkMsg ("m1") ("fuck"))
          ⟨true, [("7@c.us", 2)], ⟨[], []⟩⟩).1).1.warnings = [("7@c.us", 4)] := by
  decide

/-- C2 (amended): in the index.js engine the claim holds as stated — for an
identity with no prior record, three consecutive violations yield counts 1
then 2, the third triggers removal, a successful removal resets the record
to absent, and a fourth violation starts again at 1.  (The part_000 and
part_003 variants never reset the count after removal; see the
counterexample.) -/
theorem C2_theorem (w0 : List (String × Int)) (d : String)
    (h1 : d.data.all Char.isDigit = true) (h2 : (d == "") = false)
    (h3 : Index.isAllowedNumberDigits d = false) (h4 : mapGet w0 d = none) :
    mapGet (Index.handleMessage ⟨true, w0, ""⟩
      (Index.vioMsg d true)).1.warnings d = some 1 ∧
    mapGet (Index.handleMessage (Index.handleMessage ⟨true, w0, ""⟩
      (Index.vioMsg d true)).1 (Index.vioMsg d true)).1.warnings d = some 2 ∧
    Effect.removeParticipant d ∈
      (Index.handleMessage (Index.handleMessage (Index.handleMessage
        ⟨true, w0, ""⟩ (Index.vioMsg d true)).1 (Index.vioMsg d true)).1
        (Index.vioMsg d true)).2 ∧
    mapGet (Index.handleMessage (Index.handleMessage (Index.handleMessage
      ⟨true, w0, ""⟩ (Index.vioMsg d true)).1 (Index.vioMsg d true)).1
      (Index.vioMsg d true)).1.warnings d = none ∧
    mapGet (Index.handleMessage (Index.handleMessage (Index.handleMessage
      (Index.handleMessage ⟨true, w0, ""⟩ (Index.vioMsg d true)).1
      (Index.vioMsg d true)).1 (Index.vioMsg d true)).1
      (Index.vioMsg d true)).1.warnings d = some 1 := by
  have e0 : (mapGet w0 d).getD 0 = 0 := by rw [h4]; rfl
  have hs1 := vio_low w0 d true h1 h2 h3 0 e0 (by norm_num)
  rw [mapSet_of_get_none h4] at hs1
  simp only [zero_add] at hs1
  have g1 : mapGet (w0 ++ [(d, (1 : Int))]) d = some 1 := mapGet_last h4 1
  have e1 : (mapGet (w0 ++ [(d, (1 : Int))]) d).getD 0 = 1 := by rw [g1]; rfl
  have hs2 := vio_low (w0 ++ [(d, 1)]) d true h1 h2 h3 1 e1 (by norm_num)
  rw [mapSet_append_self h4] at hs2
  norm_num at hs2
  have g2 : mapGet (w0 ++ [(d, (2 : Int))]) d = some 2 := mapGet_last h4 2
  have e2 : (mapGet (w0 ++ [(d, (2 : Int))]) d).getD 0 = 2 := by rw [g2]; rfl
  have hs3 := (vio_high (w0 ++ [(d, 2)]) d true h1 h2 h3 2 e2 (by norm_num)).1 rfl
  rw [mapSet_append_self h4] at hs3
  norm_num at hs3
  rw [mapDelete_append_self h4] at hs3
  simp only [hs1, hs2, hs3]
  exact ⟨g1, g2, by simp, h4, g1⟩

/-- C2 witness: the amended threshold-cycle theorem applied to the identity
`111` starting from the empty warning map. -/
theorem C2_witness :
    mapGet (Index.handleMessage ⟨true, [], ""⟩
      (Index.vioMsg ("111") true)).1.warnings ("111") = some 1 ∧
    mapGet (Index.handleMessage (Index.handleMessage ⟨true, [], ""⟩
      (Index.vioMsg ("111") true)).1 (Index.vioMsg ("111") true)).1.warnings
      ("111") = some 2 ∧
    Effect.removeParticipant ("111") ∈
      (Index.handleMessage (Index.handleMessage (Index.handleMessage
        ⟨true, [], ""⟩ (Index.vioMsg ("111") true)).1
        (Index.vioMsg ("111") true)).1 (Index.vioMsg ("111") true)).2 ∧
    mapGet (Index.handleMessage (Index.handleMessage (Index.handleMessage
      ⟨true, [], ""⟩ (Index.vioMsg ("111") true)).1
      (Index.vioMsg ("111") true)).1 (Index.vioMsg ("111") true)).1.warnings
      ("111") = none ∧
    mapGet (Index.handleMessage (Index.handleMessage (Index.handleMessage
      (Index.handleMessage ⟨true, [], ""⟩ (Index.vioMsg ("111") true)).1
      (Index.vioMsg ("111") true)).1 (Index.vioMsg ("111") true)).1
      (Index.vioMsg ("111") true)).1.warnings ("111") = some 1 :=
  C2_theorem [] ("111") (by decide) (by decide) (by decide) rfl

/-- C3 counterexample: in the part_000 variant (cited by the claim), a
violation that brings the count to 4 — strictly above the threshold, as
happens after a failed removal — triggers NO removal attempt (and no
warning either): removal fires only at exactly 3. -/
theorem C3_counterexample :
    (PartZero.processSingleMessage 100 (PartZero.mkMsg ("m1") ("fuck"))
        ⟨true, [("7@c.us", 3)], ⟨[], []⟩⟩).1.warnings = [("7@c.us", 4)] ∧
    Effect.removeParticipant ("7@c.us") ∉
      (PartZero.processSingleMessage 100 (PartZero.mkMsg ("m1") ("fuck"))
        ⟨true, [("7@c.us", 3)], ⟨[], []⟩⟩).2 := by decide

/-- C3 (amended): the index.js engine attempts removal whenever a violation
brings the count to at least the threshold 3 — including counts strictly
above it after a failed removal — regardless of whether the removal
capability is available.  (The part_000 and part_003 variants remove only
at exactly 3; see the counterexample.) -/
theorem C3_theorem (w : List (String × Int)) (d : String) (rOk : Bool)
    (c0 : Int) (hall : d.data.all Char.isDigit = true)
    (hne : (d == "") = false) (hna : Index.isAllowedNumberDigits d = false)
    (hc : (mapGet w d).getD 0 = c0) (hge : 3 ≤ c0 + 1) :
    Effect.removeParticipant d ∈
      (Index.handleMessage ⟨true, w, ""⟩ (Index.vioMsg d rOk)).2 :=
  (vio_high w d rOk hall hne hna c0 hc hge).2

/-- C3 witness: a fifth strike (count 4 → 5, above the threshold) with the
removal capability absent still produces a removal attempt. -/
theorem C3_witness :
    Effect.removeParticipant ("111") ∈
      (Index.handleMessage ⟨true, [(("111" : String), (4 : Int))], ""⟩
        (Index.vioMsg ("111") false)).2 :=
  C3_theorem [(("111" : String), (4 : Int))] ("111") false 4 (by decide)
    (by decide) (by decide) (by decide) (by norm_num)

/-- C10: every reachable warning-map value is a strictly positive integer —
the full handler preserves the invariant, increment creates absent entries
at 1 and otherwise adds 1, and deletion (reset, successful removal)
removes the key entirely. -/
theorem C10_theorem :
    (∀ (s : Index.ISt) (m : Index.IMsg), WInv s.warnings →
        WInv (Index.handleMessage s m).1.warnings) ∧
    (∀ (w : List (String × Int)) (k : String),
        mapGet w k = none → mapGet (incrementWarning w k) k = some 1) ∧
    (∀ (w : List (String × Int)) (k : String) (c : Int),
        mapGet w k = some c → mapGet (incrementWarning w k) k = some (c + 1)) ∧
    (∀ (w : List (String × Int)) (k : String),
        mapGet (mapDelete w k) k = none) := by
  refine ⟨fun s m h => handleMessage_WInv s m h, ?_, ?_, ?_⟩
  · intro w k h
    unfold incrementWarning
    rw [h, mapGet_set_self]
    rfl
  · intro w k c h
    unfold incrementWarning
    rw [h, mapGet_set_self]
    rfl
  · exact fun w k => mapGet_delete_self w k

/-- C10 witness: the invariant preservation applied at the empty map and a
violating message, and the increment laws at concrete maps. -/
theorem C10_witness :
    WInv (Index.handleMessage ⟨true, [], ""⟩ (Index.vioMsg ("111") true)).1.warnings ∧
    mapGet (incrementWarning [] ("7")) ("7") = some 1 ∧
    mapGet (incrementWarning [(("7" : String), (2 : Int))] ("7")) ("7") = some (2 + 1) ∧
    mapGet (mapDelete [(("7" : String), (3 : Int))] ("7")) ("7") = none :=
  ⟨C10_theorem.1 ⟨true, [], ""⟩ (Index.vioMsg ("111") true)
      (by intro k c hc; simp [mapGet] at hc),
   C10_theorem.2.1 [] ("7") rfl,
   C10_theorem.2.2.1 [(("7" : String), (2 : Int))] ("7") 2 (by decide),
   C10_theorem.2.2.2 [(("7" : String), (3 : Int))] ("7")⟩

/-- C6 counterexample: with 30000 stale entries in the dedup ledger, the
`markProcessed` performed by the first processing of a stale message
overflows the 30000 bound and `trimProcessed` evicts every entry —
including the id just recorded.  Processing the same message twice in
succession therefore deletes it twice and increments the sender's warnings
to 2: the second processing is not discarded and has side effects. -/
theorem C6_counterexample :
    mapGet (PartZero.processSingleMessage 1000000 PartZero.staleMsg
      (PartZero.processSingleMessage 1000000 PartZero.staleMsg
        ⟨true, [], ⟨PartZero.bigPairs.map Prod.fst, PartZero.bigPairs⟩⟩).1).1.warnings
      ("7@c.us") = some 2 ∧
    (PartZero.processSingleMessage 1000000 PartZero.staleMsg
      (PartZero.processSingleMessage 1000000 PartZero.staleMsg
        ⟨true, [], ⟨PartZero.bigPairs.map Prod.fst, PartZero.bigPairs⟩⟩).1).2 ≠ [] := by
  have hid : (PartZero.staleMsg.msgId == "") = false := by decide
  have h1 : PartZero.processSingleMessage 1000000 PartZero.staleMsg
      ⟨true, [], ⟨PartZero.bigPairs.map Prod.fst, PartZero.bigPairs⟩⟩ =
      PartZero.processAfterMark PartZero.staleMsg ⟨true, [], ⟨[], []⟩⟩ := by
    unfold PartZero.processSingleMessage
    rw [if_neg (by simp [hid])]
    rw [if_neg ?hips]
    case hips =>
      unfold PartZero.isProcessed
      dsimp only
      rw [show PartZero.staleMsg.msgId = ("x" : String) from rfl, bigPairs_get_x]
      simp
    dsimp only
    rw [show (if (PartZero.staleMsg.timestamp == 0) = true then 1000000
        else PartZero.staleMsg.timestamp) = 1 from rfl]
    rw [show PartZero.staleMsg.msgId = ("x" : String) from rfl]
    rw [mark_big]
  rw [h1]
  decide

/-- C6 (amended): dedup idempotence holds whenever the first processing
does not evict the freshly recorded id — in particular whenever the ledger
holds fewer than 30000 entries: processing the same message twice in
succession makes the second processing a no-op (unchanged state, no side
effects).  Unconditionally, the claim fails in the eviction corner shown in
the counterexample. -/
theorem C6_theorem (now : Nat) (m : PartZero.Msg0) (s : PartZero.St0)
    (hlen : s.ledger.map.length < 30000) :
    PartZero.processSingleMessage now m
        (PartZero.processSingleMessage now m s).1 =
      ((PartZero.processSingleMessage now m s).1, []) := by
  by_cases h0 : (m.msgId == "") = true
  · have h1 : ∀ r : PartZero.St0,
        PartZero.processSingleMessage now m r = (r, []) := by
      intro r
      unfold PartZero.processSingleMessage
      rw [if_pos h0]
    rw [h1 s]
    dsimp only
    exact h1 s
  · have hid : (m.msgId == "") = false := Bool.not_eq_true _ |>.mp h0
    exact process_of_processed now m _ hid
      (process_then_processed now m s hid hlen)

/-- C6 witness: the amended idempotence theorem applied to a small ledger
and a concrete violating message. -/
theorem C6_witness :
    PartZero.processSingleMessage 5 (PartZero.mkMsg ("w1") ("fuck"))
        (PartZero.processSingleMessage 5 (PartZero.mkMsg ("w1") ("fuck"))
          ⟨true, [], ⟨[], []⟩⟩).1 =
      ((PartZero.processSingleMessage 5 (PartZero.mkMsg ("w1") ("fuck"))
          ⟨true, [], ⟨[], []⟩⟩).1, []) :=
  C6_theorem 5 (PartZero.mkMsg ("w1") ("fuck")) ⟨true, [], ⟨[], []⟩⟩
    (by decide)

theorem requestSave_fst_disabled (s : Persist.PSt) :
    (Persist.requestSave s).1.diskWritesDisabled = s.diskWritesDisabled := by
  unfold Persist.requestSave
  split_ifs <;> rfl

theorem completeSave_fst_disabled (ok : Bool) (s : Persist.PSt)
    (h : ok = false ∨ s.diskWritesDisabled = true) :
    (Persist.completeSave ok s).1.diskWritesDisabled = true := by
  have hd2 : (if ok then s.diskWritesDisabled else true) = true := by
    cases ok with
    | false => rfl
    | true =>
      rcases h with h | h
      · cases h
      · simpa using h
  unfold Persist.completeSave
  dsimp only
  rw [hd2]
  split_ifs with hq
  · rw [requestSave_fst_disabled]
  · rfl

/-- C7: persistence is single-writer with coalescing — in every reachable
state at most one write is in flight (exactly one while `saveInProgress`),
a request during an in-flight save only sets the queue flag and starts no
concurrent write, and completion of a save with a queued request starts
exactly one follow-up save (none after a failure, which disables disk
writes). -/
theorem C7_theorem :
    (∀ (s : Persist.PSt), Persist.Reach s → s.writesInFlight ≤ 1) ∧
    (∀ (s : Persist.PSt), Persist.Reach s →
        s.writesInFlight = (if s.saveInProgress then 1 else 0)) ∧
    (∀ (s : Persist.PSt), s.diskWritesDisabled = false →
        s.saveInProgress = true →
        Persist.pstep s Persist.PEv.request = some {s with saveQueued := true}) ∧
    (∀ (s : Persist.PSt) (ok : Bool), s.diskWritesDisabled = false →
        s.saveInProgress = true → s.saveQueued = true → s.writesInFlight = 1 →
        Persist.pstep s (Persist.PEv.complete ok) =
          some (if ok then {s with saveQueued := false}
                else (⟨true, false, false, 0⟩ : Persist.PSt))) := by
  refine ⟨?_, ?_, ?_, ?_⟩
  · intro s hs
    have := Persist.flightInv_reach hs
    rw [this]
    split <;> norm_num
  · intro s hs
    exact Persist.flightInv_reach hs
  · intro s h1 h2
    obtain ⟨d, ip, q, f⟩ := s
    cases h1
    cases h2
    rfl
  · intro s ok h1 h2 h3 h4
    obtain ⟨d, ip, q, f⟩ := s
    cases h1
    cases h2
    cases h3
    cases h4
    cases ok <;> rfl

/-- C7 witness: from the start state, one request puts a single write in
flight; a second request coalesces into the queue flag; completion then
starts exactly the one queued follow-up write. -/
theorem C7_witness :
    (⟨false, true, false, 1⟩ : Persist.PSt).writesInFlight ≤ 1 ∧
    Persist.pstep ⟨false, true, false, 1⟩ Persist.PEv.request =
      some ⟨false, true, true, 1⟩ ∧
    Persist.pstep ⟨false, true, true, 1⟩ (Persist.PEv.complete true) =
      some ⟨false, true, false, 1⟩ :=
  ⟨C7_theorem.1 ⟨false, true, false, 1⟩
      (@Persist.Reach.next Persist.initState Persist.PEv.request
        ⟨false, true, false, 1⟩ Persist.Reach.start rfl),
   C7_theorem.2.2.1 ⟨false, true, false, 1⟩ rfl rfl,
   C7_theorem.2.2.2 ⟨false, true, true, 1⟩ true rfl rfl rfl rfl⟩

/-- C8: after the first persistence failure the store is memory-only and
sticky — a failed completion disables disk writes, every event preserves
the disabled flag, a request in the disabled state is skipped without
starting a write, and increment/get/reset keep operating correctly on the
in-memory map (they are total functions). -/
theorem C8_theorem :
    (∀ (s : Persist.PSt), s.diskWritesDisabled = true →
        Persist.requestSave s = (s, false)) ∧
    (∀ (s s2 : Persist.PSt), Persist.pstep s (Persist.PEv.complete false) = some s2 →
        s2.diskWritesDisabled = true) ∧
    (∀ (s s2 : Persist.PSt) (e : Persist.PEv), s.diskWritesDisabled = true →
        Persist.pstep s e = some s2 → s2.diskWritesDisabled = true) ∧
    (∀ (w : List (String × Int)) (k : String),
        mapGet (incrementWarning w k) k = some ((mapGet w k).getD 0 + 1) ∧
        mapGet (mapDelete w k) k = none ∧
        (∀ (j : String), j ≠ k →
          mapGet (incrementWarning w k) j = mapGet w j ∧
          mapGet (mapDelete w k) j = mapGet w j)) := by
  refine ⟨?_, ?_, ?_, ?_⟩
  · intro s h
    unfold Persist.requestSave
    rw [if_pos h]
  · intro s s2 h
    simp only [Persist.pstep] at h
    by_cases hip : s.saveInProgress = true
    · rw [if_pos hip] at h
      injection h with h2
      rw [← h2]
      exact completeSave_fst_disabled false s (Or.inl rfl)
    · rw [if_neg hip] at h
      cases h
  · intro s s2 e h hs
    cases e with
    | request =>
      simp only [Persist.pstep, Option.some.injEq] at hs
      rw [← hs, requestSave_fst_disabled]
      exact h
    | complete ok =>
      simp only [Persist.pstep] at hs
      by_cases hip : s.saveInProgress = true
      · rw [if_pos hip] at hs
        injection hs with h2
        rw [← h2]
        exact completeSave_fst_disabled ok s (Or.inr h)
      · rw [if_neg hip] at hs
        cases hs
  · intro w k
    refine ⟨?_, mapGet_delete_self w k, ?_⟩
    · unfold incrementWarning
      rw [mapGet_set_self]
    · intro j hj
      exact ⟨mapGet_set_ne w _ (fun hc => hj hc.symm),
             mapGet_delete_ne w (fun hc => hj hc.symm)⟩

/-- C8 witness: the stickiness and skip laws applied at concrete states,
and the in-memory operations at a concrete map. -/
theorem C8_witness :
    Persist.requestSave ⟨true, false, false, 0⟩ = (⟨true, false, false, 0⟩, false) ∧
    Persist.pstep ⟨false, true, false, 1⟩ (Persist.PEv.complete false) =
      some ⟨true, false, false, 0⟩ ∧
    mapGet (incrementWarning [] ("7")) ("7") =
      some ((mapGet ([] : List (String × Int)) ("7")).getD 0 + 1) ∧
    mapGet (mapDelete [(("7" : String), (1 : Int))] ("7")) ("7") = none :=
  ⟨C8_theorem.1 ⟨true, false, false, 0⟩ rfl,
   rfl,
   (C8_theorem.2.2.2 [] ("7")).1,
   (C8_theorem.2.2.2 [(("7" : String), (1 : Int))] ("7")).2.1⟩

/-- C9: on load, an existing-but-unparsable warnings file is preserved
under the quarantine name `<file>.corrupt.<timestamp>` (by rename; by copy
when the rename fails; left in place when both fail) and the store starts
empty; an unreadable file is caught, leaving the filesystem untouched and
flipping to memory-only — the loader is a total function, so loading never
throws. -/
theorem C9_theorem (parse : String → Option (List (String × Int)))
    (ts raw : String) (renameOk copyOk : Bool)
    (fs0 : List (String × String))
    (hf : mapGet fs0 Load.WARNINGS_FILE = some raw)
    (hp : parse (if raw == "" then ("{}" : String) else raw) = none) :
    (Load.loadWarnings parse ts true renameOk copyOk fs0).warnings = [] ∧
    (renameOk = true →
      mapGet (Load.loadWarnings parse ts true renameOk copyOk fs0).fs
        (Load.WARNINGS_FILE ++ (".corrupt.") ++ ts) = some raw ∧
      mapGet (Load.loadWarnings parse ts true renameOk copyOk fs0).fs
        Load.WARNINGS_FILE = none) ∧
    (renameOk = false → copyOk = true →
      mapGet (Load.loadWarnings parse ts true renameOk copyOk fs0).fs
        (Load.WARNINGS_FILE ++ (".corrupt.") ++ ts) = some raw ∧
      mapGet (Load.loadWarnings parse ts true renameOk copyOk fs0).fs
        Load.WARNINGS_FILE = some raw) ∧
    (renameOk = false → copyOk = false →
      (Load.loadWarnings parse ts true renameOk copyOk fs0).fs = fs0) ∧
    (∀ (rOk cOk : Bool),
      Load.loadWarnings parse ts false rOk cOk fs0 = ⟨fs0, [], true⟩) := by
  have hcne : (Load.WARNINGS_FILE ++ (".corrupt.") ++ ts) ≠ Load.WARNINGS_FILE := by
    intro hc
    have := congrArg String.length hc
    simp only [String.length_append] at this
    have h9 : (".corrupt." : String).length = 9 := by decide
    omega
  refine ⟨?_, ?_, ?_, ?_, ?_⟩
  · unfold Load.loadWarnings
    rw [hf]
    simp only [hp, Bool.not_true, Bool.false_eq_true, if_false]
    split_ifs <;> rfl
  · intro hr
    unfold Load.loadWarnings
    rw [hf]
    simp only [hp, hr, Bool.not_true, Bool.false_eq_true, if_false, if_true]
    exact ⟨mapGet_set_self _ _ _,
      by rw [mapGet_set_ne _ _ hcne, mapGet_delete_self]⟩
  · intro hr hcp
    unfold Load.loadWarnings
    rw [hf]
    simp only [hp, hr, hcp, Bool.not_true, Bool.false_eq_true, if_false, if_true]
    exact ⟨mapGet_set_self _ _ _, by rw [mapGet_set_ne _ _ hcne, hf]⟩
  · intro hr hcp
    unfold Load.loadWarnings
    rw [hf]
    simp only [hp, hr, hcp, Bool.not_true, Bool.false_eq_true, if_false]
  · intro rOk cOk
    unfold Load.loadWarnings
    rw [hf]
    rfl

/-- C9 witness: a one-file filesystem whose warnings file does not parse is
quarantined under the timestamped name with an empty resulting store. -/
theorem C9_witness :
    (Load.loadWarnings (fun _ => none) ("T") true true true
        [(("warnings.json" : String), ("bad" : String))]).warnings = [] ∧
    mapGet (Load.loadWarnings (fun _ => none) ("T") true true true
        [(("warnings.json" : String), ("bad" : String))]).fs
      (Load.WARNINGS_FILE ++ (".corrupt.") ++ ("T")) = some ("bad") ∧
    mapGet (Load.loadWarnings (fun _ => none) ("T") true true true
        [(("warnings.json" : String), ("bad" : String))]).fs
      Load.WARNINGS_FILE = none :=
  ⟨(C9_theorem (fun _ => none) ("T") ("bad") true true
      [(("warnings.json" : String), ("bad" : String))] (by decide) rfl).1,
   ((C9_theorem (fun _ => none) ("T") ("bad") true true
      [(("warnings.json" : String), ("bad" : String))] (by decide) rfl).2.1 rfl).1,
   ((C9_theorem (fun _ => none) ("T") ("bad") true true
      [(("warnings.json" : String), ("bad" : String))] (by decide) rfl).2.1 rfl).2⟩

end ModBot
